import Mathlib

/-!
Shallow embedding of the session-security core of the `ecom-be` repository
(registration, login, refresh rotation with reuse detection, logout,
logout-all, change-password, per-request access-token verification, and the
cached RBAC permission check), together with theorems settling the frozen
claims about it.

Modelling conventions:
* UUIDs are modelled as `Nat`, UTC instants as `Nat` seconds
  (`timedelta(days=d)` becomes `d * 86400` seconds,
  `timedelta(minutes=m)` becomes `m * 60`).
* The keyed token digest (`TokenHasher.hash_token`) and the password hash
  are abstract `String → String` parameters of the use cases.
* Persistence repositories are embedded as pure functions over `List`-based
  stores; a use case returns the committed store together with its result.
  A Python use case that raises before `uow.commit()` rolls the transaction
  back, so those paths return the input store unchanged; the reuse-detection
  path of `RefreshUseCase.execute` commits before raising, so it returns the
  mutated store together with the error.
-/

namespace Ecom

/-- Refresh token domain entity, from `src/app/domain/entities/refresh_token.py`. -/
structure RefreshToken where
  id : Nat
  user_id : Nat
  token_hash : String
  family_id : Nat
  issued_at : Nat
  expires_at : Nat
  revoked_at : Option Nat
  replaced_by_token_id : Option Nat
  deriving Repr, DecidableEq

/-- Python `RefreshToken.is_expired`: `current_time >= self.expires_at`. -/
def RefreshToken.is_expired (t : RefreshToken) (current_time : Nat) : Bool :=
  current_time ≥ t.expires_at

/-- Python `RefreshToken.is_revoked`: `self.revoked_at is not None`. -/
def RefreshToken.is_revoked (t : RefreshToken) : Bool :=
  t.revoked_at.isSome

/-- Python `RefreshToken.is_replaced`: `self.replaced_by_token_id is not None`. -/
def RefreshToken.is_replaced (t : RefreshToken) : Bool :=
  t.replaced_by_token_id.isSome

/-- Python `RefreshToken.can_be_used`. -/
def RefreshToken.can_be_used (t : RefreshToken) (current_time : Nat) : Bool :=
  !t.is_expired current_time && !t.is_revoked && !t.is_replaced

/-- Python `RefreshToken.revoke`: copy with `revoked_at` set. -/
def RefreshToken.revoke (t : RefreshToken) (revoked_at : Nat) : RefreshToken :=
  { t with revoked_at := some revoked_at }

/-- Python `RefreshToken.mark_as_replaced`: copy with `replaced_by_token_id` set. -/
def RefreshToken.mark_as_replaced (t : RefreshToken) (replaced_by_id : Nat) : RefreshToken :=
  { t with replaced_by_token_id := some replaced_by_id }

/-- User domain entity, from `src/app/domain/entities/user.py`.
The email is kept as its underlying string value. -/
structure User where
  id : Nat
  email : String
  password_hash : String
  is_active : Bool
  is_verified : Bool
  token_version : Nat
  created_at : Nat
  updated_at : Nat
  deriving Repr, DecidableEq

/-- Python `User.with_new_password`: new digest and `token_version + 1`. -/
def User.with_new_password (u : User) (password_hash : String) (updated_at : Nat) : User :=
  { u with password_hash := password_hash,
           token_version := u.token_version + 1,
           updated_at := updated_at }

/-- Python `User.with_token_version_incremented`. -/
def User.with_token_version_incremented (u : User) (updated_at : Nat) : User :=
  { u with token_version := u.token_version + 1, updated_at := updated_at }

/-- Permission domain entity (`src/app/domain/entities/permission.py`),
reduced to the fields the RBAC check reads. -/
structure Permission where
  id : Nat
  code : String
  deriving Repr, DecidableEq

/-- Backing store visible to the auth use cases: the `users` and
`refresh_tokens` tables plus the user→role-names mapping consumed through
`AuthRepository.get_user_roles`. -/
structure Store where
  users : List User
  tokens : List RefreshToken
  user_roles : List (Nat × List String)
  deriving Repr, DecidableEq

/-- `SqlAlchemyRefreshTokenRepository.get_by_token_hash`: select by digest. -/
def get_by_token_hash (ts : List RefreshToken) (token_hash : String) : Option RefreshToken :=
  ts.find? (fun t => t.token_hash == token_hash)

/-- `SqlAlchemyRefreshTokenRepository.revoke_by_token_hash`: unconditional
`UPDATE ... SET revoked_at = :revoked_at WHERE token_hash = :token_hash`
(no `revoked_at IS NULL` filter, unlike the family/user-wide variants). -/
def revoke_by_token_hash (ts : List RefreshToken) (token_hash : String) (revoked_at : Nat) :
    List RefreshToken :=
  ts.map (fun t => if t.token_hash == token_hash then { t with revoked_at := some revoked_at } else t)

/-- `SqlAlchemyRefreshTokenRepository.revoke_all_for_user`: set `revoked_at`
where `user_id` matches and `revoked_at IS NULL`. -/
def revoke_all_for_user (ts : List RefreshToken) (user_id : Nat) (revoked_at : Nat) :
    List RefreshToken :=
  ts.map (fun t => if t.user_id == user_id && t.revoked_at.isNone
    then { t with revoked_at := some revoked_at } else t)

/-- `SqlAlchemyRefreshTokenRepository.revoke_family`: set `revoked_at` where
`family_id` matches and `revoked_at IS NULL`. -/
def revoke_family (ts : List RefreshToken) (family_id : Nat) (revoked_at : Nat) :
    List RefreshToken :=
  ts.map (fun t => if t.family_id == family_id && t.revoked_at.isNone
    then { t with revoked_at := some revoked_at } else t)

/-- `SqlAlchemyRefreshTokenRepository.save`: insert a new row. -/
def save_token (ts : List RefreshToken) (t : RefreshToken) : List RefreshToken :=
  ts ++ [t]

/-- `SqlAlchemyRefreshTokenRepository.update`: replace the row with the same id. -/
def update_token (ts : List RefreshToken) (t : RefreshToken) : List RefreshToken :=
  ts.map (fun v => if v.id == t.id then t else v)

/-- `SqlAlchemyUserRepository.get_by_id`. -/
def get_user_by_id (us : List User) (user_id : Nat) : Option User :=
  us.find? (fun u => u.id == user_id)

/-- `SqlAlchemyUserRepository.get_by_email`: exact string match on the
stored email column. -/
def get_user_by_email (us : List User) (email : String) : Option User :=
  us.find? (fun u => u.email == email)

/-- `SqlAlchemyUserRepository.exists_by_email`. -/
def exists_by_email (us : List User) (email : String) : Bool :=
  (get_user_by_email us email).isSome

/-- `SqlAlchemyUserRepository.save`: insert a new row. -/
def save_user (us : List User) (u : User) : List User :=
  us ++ [u]

/-- `SqlAlchemyUserRepository.update`: replace the row with the same id. -/
def update_user (us : List User) (u : User) : List User :=
  us.map (fun v => if v.id == u.id then u else v)

/-- `AuthRepository.get_user_roles`: role names assigned to a user (empty
when the user has no assignment row). -/
def get_user_roles (st : Store) (user_id : Nat) : List String :=
  ((st.user_roles.find? (fun p => p.1 == user_id)).map Prod.snd).getD []

/-- Typed failure outcomes of `RefreshUseCase.execute`
(`src/app/domain/errors/domain_errors.py`). -/
inductive RefreshErr where
  | tokenNotFound
  | tokenExpired
  | tokenRevoked
  | reuseDetected
  | userNotFound
  | userNotActive
  deriving Repr, DecidableEq

/-- Claim set of the access JWT as issued by `JwtService.issue_access_token`:
subject, role names, token version, issued-at and expiry instants. -/
structure AccessTokenClaims where
  sub : Nat
  roles : List String
  ver : Nat
  iat : Nat
  exp : Nat
  deriving Repr, DecidableEq

/-- Successful payload of `RefreshUseCase.execute` (access token claims plus
the fresh raw refresh token handed back to the caller). -/
structure RefreshOk where
  access_token : AccessTokenClaims
  refresh_token : String
  deriving Repr, DecidableEq

/-- Result of a use case together with the committed store. Error paths that
raise before `uow.commit()` carry the unchanged input store (rollback); the
reuse-detection path commits its remediation before raising. -/
structure Outcome (ε : Type) (α : Type) where
  store : Store
  result : Except ε α

/-- `RefreshUseCase.execute` (`src/app/application/use_cases/auth/refresh.py`).
Parameters supplied by the environment: the keyed digest function
`hash_token`, the access-token TTL in minutes, the refresh-token TTL in days
(default 14), the fresh UUID `new_id` for the rotated row and the fresh raw
token `new_raw` drawn by `TokenHasher.generate_token`. -/
def refresh_execute (hash_token : String → String) (access_ttl_min ttl_days : Nat)
    (st : Store) (raw : String) (now : Nat) (new_id : Nat) (new_raw : String) :
    Outcome RefreshErr RefreshOk :=
  let token_hash := hash_token raw
  match get_by_token_hash st.tokens token_hash with
  | none => ⟨st, .error .tokenNotFound⟩
  | some old_token =>
    if old_token.is_expired now then ⟨st, .error .tokenExpired⟩
    else if old_token.is_revoked then ⟨st, .error .tokenRevoked⟩
    else if old_token.is_replaced then
      -- reuse detected: revoke the family, bump the owner's token_version,
      -- commit, and only then fail
      let ts := revoke_family st.tokens old_token.family_id now
      let us :=
        match get_user_by_id st.users old_token.user_id with
        | some user => update_user st.users (user.with_token_version_incremented now)
        | none => st.users
      ⟨{ st with tokens := ts, users := us }, .error .reuseDetected⟩
    else
      match get_user_by_id st.users old_token.user_id with
      | none => ⟨st, .error .userNotFound⟩
      | some user =>
        if !user.is_active then ⟨st, .error .userNotActive⟩
        else
          let roles := get_user_roles st user.id
          let access : AccessTokenClaims :=
            { sub := user.id, roles := roles, ver := user.token_version,
              iat := now, exp := now + access_ttl_min * 60 }
          let new_token : RefreshToken :=
            { id := new_id, user_id := user.id, token_hash := hash_token new_raw,
              family_id := old_token.family_id, issued_at := now,
              expires_at := now + ttl_days * 86400,
              revoked_at := none, replaced_by_token_id := none }
          let ts := update_token (save_token st.tokens new_token)
            (old_token.mark_as_replaced new_token.id)
          ⟨{ st with tokens := ts }, .ok ⟨access, new_raw⟩⟩

/-- `LogoutUseCase.execute` (`src/app/application/use_cases/auth/logout.py`).
A missing digest is a silent success; otherwise the row is revoked through
the unconditional `revoke_by_token_hash` update. The use case never fails. -/
def logout_execute (hash_token : String → String) (st : Store) (raw : String) (now : Nat) :
    Store :=
  let token_hash := hash_token raw
  match get_by_token_hash st.tokens token_hash with
  | none => st
  | some _ => { st with tokens := revoke_by_token_hash st.tokens token_hash now }

/-- `LogoutAllUseCase.execute` (`src/app/application/use_cases/auth/logout_all.py`):
revoke every non-revoked token of the user and increment `token_version`. -/
def logout_all_execute (st : Store) (user_id : Nat) (now : Nat) : Outcome RefreshErr Unit :=
  match get_user_by_id st.users user_id with
  | none => ⟨st, .error .userNotFound⟩
  | some user =>
    let ts := revoke_all_for_user st.tokens user_id now
    let us := update_user st.users (user.with_token_version_incremented now)
    ⟨{ st with tokens := ts, users := us }, .ok ()⟩

/-- `PasswordPolicy.validate` (`src/app/domain/services/password_policy.py`)
as a boolean: nonempty, length in [8, 128], at least one digit and at least
one letter. Character predicates are the ASCII forms of Python's
`str.isdigit`/`str.isalpha`. -/
def password_policy_ok (password : String) : Bool :=
  !password.isEmpty
    && password.length ≥ 8
    && password.length ≤ 128
    && password.data.any Char.isDigit
    && password.data.any Char.isAlpha

/-- Character class `[a-zA-Z0-9._%+-]` of the email regex (local part). -/
def email_local_char (c : Char) : Bool :=
  c.isAlphanum || c == '.' || c == '_' || c == '%' || c == '+' || c == '-'

/-- Character class `[a-zA-Z0-9.-]` of the email regex (domain part). -/
def email_domain_char (c : Char) : Bool :=
  c.isAlphanum || c == '.' || c == '-'

/-- Core pattern `[a-zA-Z0-9._%+-]+@[a-zA-Z0-9.-]+\.[a-zA-Z]{2,}` matched
against the whole character list: the local part runs to the first `@`
(no class contains `@`), and the remainder splits at some dot into a
nonempty domain part and an alphabetic top-level part of length ≥ 2 —
exactly the decompositions a backtracking matcher explores. -/
def email_core_match (cs : List Char) : Bool :=
  let local_part := cs.takeWhile (fun c => c != '@')
  let rest := cs.drop (local_part.length + 1)
  !local_part.isEmpty
    && local_part.all email_local_char
    && cs.length > local_part.length
    && (List.range rest.length).any (fun i =>
        rest.getD i ' ' == '.'
          && !(rest.take i).isEmpty
          && (rest.take i).all email_domain_char
          && (rest.drop (i + 1)).all Char.isAlpha
          && rest.length - (i + 1) ≥ 2)

/-- Python `re.match(r"^...$", value)`: anchored at the start, and `$`
matches at the end of the string or just before one final newline. -/
def email_regex_match (s : String) : Bool :=
  email_core_match s.data
    || (s.data.getLast? == some '\n' && email_core_match s.data.dropLast)

/-- Validation performed by `Email.__post_init__`
(`src/app/domain/value_objects/email.py`): nonempty after stripping
whitespace, regex format check, and at most 255 characters. -/
def email_valid (s : String) : Bool :=
  !(s.data.all Char.isWhitespace)
    && email_regex_match s
    && s.length ≤ 255

/-- Python `Email.normalize`: `Email(self.value.lower())` — lowercasing only
(per character, which agrees with Python on the ASCII range the regex
admits), no whitespace trimming; the lowered value is validated again by the
`Email` constructor. -/
def email_normalize (s : String) : String :=
  ⟨s.data.map Char.toLower⟩

/-- Failure outcomes of registration and login. `validationErr` stands for
the `ValueError` raised by `PasswordPolicy.validate` or `Email.__post_init__`;
`invalidCredentials` carries the user-facing message of
`InvalidCredentialsError`. -/
inductive AuthErr where
  | validationErr
  | userAlreadyExists
  | invalidCredentials (msg : String)
  | userNotActive
  | userNotFound
  deriving Repr, DecidableEq

/-- `RegisterUseCase.execute` (`src/app/application/use_cases/auth/register.py`):
validate the password policy, construct and normalize the email (each step can
raise `ValueError`), fail with `UserAlreadyExistsError` when the normalized
email exists, otherwise persist a new active, unverified user with
`token_version = 0`. -/
def register_execute (hash_password : String → String) (st : Store)
    (email password : String) (now new_id : Nat) : Outcome AuthErr Nat :=
  if !password_policy_ok password then ⟨st, .error .validationErr⟩
  else if !email_valid email then ⟨st, .error .validationErr⟩
  else
    let normalized := email_normalize email
    if !email_valid normalized then ⟨st, .error .validationErr⟩
    else if exists_by_email st.users normalized then ⟨st, .error .userAlreadyExists⟩
    else
      let user : User :=
        { id := new_id, email := normalized, password_hash := hash_password password,
          is_active := true, is_verified := false, token_version := 0,
          created_at := now, updated_at := now }
      ⟨{ st with users := save_user st.users user }, .ok new_id⟩

/-- Successful payload of `LoginUseCase.execute` (access token claims plus the
raw refresh token; the CSRF token is an independent random string and is not
modelled). -/
structure LoginOk where
  access_token : AccessTokenClaims
  refresh_token : String
  deriving Repr, DecidableEq

/-- `LoginUseCase.execute` (`src/app/application/use_cases/auth/login.py`):
normalize the email, look the user up, and fail with the one generic
`InvalidCredentialsError("Invalid email or password")` both when no user
matches and when the password digest does not verify; then require
`is_active`, issue an access token at the user's current `token_version`, and
persist a fresh-family refresh token. `verify_password` is the abstract
digest check; `new_tok_id`, `new_fam_id` and `new_raw` are the fresh values
drawn inside the use case. -/
def login_execute (hash_token : String → String)
    (verify_password : String → String → Bool)
    (access_ttl_min ttl_days : Nat) (st : Store) (email password : String)
    (now : Nat) (new_tok_id new_fam_id : Nat) (new_raw : String) :
    Outcome AuthErr LoginOk :=
  if !email_valid email then ⟨st, .error .validationErr⟩
  else
    let normalized := email_normalize email
    if !email_valid normalized then ⟨st, .error .validationErr⟩
    else
      match get_user_by_email st.users normalized with
      | none => ⟨st, .error (.invalidCredentials "Invalid email or password")⟩
      | some user =>
        if !verify_password password user.password_hash then
          ⟨st, .error (.invalidCredentials "Invalid email or password")⟩
        else if !user.is_active then ⟨st, .error .userNotActive⟩
        else
          let roles := get_user_roles st user.id
          let access : AccessTokenClaims :=
            { sub := user.id, roles := roles, ver := user.token_version,
              iat := now, exp := now + access_ttl_min * 60 }
          let refresh_token : RefreshToken :=
            { id := new_tok_id, user_id := user.id, token_hash := hash_token new_raw,
              family_id := new_fam_id, issued_at := now,
              expires_at := now + ttl_days * 86400,
              revoked_at := none, replaced_by_token_id := none }
          ⟨{ st with tokens := save_token st.tokens refresh_token },
            .ok ⟨access, new_raw⟩⟩

/-- `ChangePasswordUseCase.execute`
(`src/app/application/use_cases/auth/change_password.py`): validate the new
password, verify the old one, store the new digest with `token_version + 1`,
and revoke every non-revoked refresh token of the user. -/
def change_password_execute (hash_password : String → String)
    (verify_password : String → String → Bool) (st : Store)
    (user_id : Nat) (old_password new_password : String) (now : Nat) :
    Outcome AuthErr Unit :=
  if !password_policy_ok new_password then ⟨st, .error .validationErr⟩
  else
    match get_user_by_id st.users user_id with
    | none => ⟨st, .error .userNotFound⟩
    | some user =>
      if !verify_password old_password user.password_hash then
        ⟨st, .error (.invalidCredentials "Current password is incorrect")⟩
      else
        let updated := user.with_new_password (hash_password new_password) now
        let us := update_user st.users updated
        let ts := revoke_all_for_user st.tokens user_id now
        ⟨{ st with users := us, tokens := ts }, .ok ()⟩

/-- Access token as seen by the per-request gate: the claims produced by
`JwtService.issue_access_token` together with boolean outcomes of the checks
`jwt.decode` performs (RS256 signature, issuer, audience, expiry, required
claims). The cryptographic library itself is external to the repository, so
its verdicts are modelled as fields rather than recomputed. -/
structure PresentedToken where
  claims : AccessTokenClaims
  sig_valid : Bool
  issuer_ok : Bool
  audience_ok : Bool
  not_expired : Bool
  required_claims_present : Bool
  deriving Repr, DecidableEq

/-- `JwtService.verify_access_token` succeeds exactly when every check of
`jwt.decode` passes. -/
def verify_access_token (t : PresentedToken) : Bool :=
  t.sig_valid && t.issuer_ok && t.audience_ok && t.not_expired
    && t.required_claims_present

/-- Principal DTO derived per request (`src/app/application/dto/principal_dto.py`). -/
structure Principal where
  user_id : Nat
  email : String
  roles : List String
  token_version : Nat
  is_active : Bool
  deriving Repr, DecidableEq

/-- `get_current_principal` (`src/app/presentation/api/deps/auth_deps.py`):
verify the JWT, load the user by subject, require the account active, and
reject any token whose `ver` claim differs from the user's current
`token_version`. Every failure is the same HTTP 401 unauthorized outcome,
modelled as `Except.error` with the response detail string. -/
def get_current_principal (st : Store) (t : PresentedToken) : Except String Principal :=
  if !verify_access_token t then .error "Invalid token"
  else
    match get_user_by_id st.users t.claims.sub with
    | none => .error "User not found"
    | some user =>
      if !user.is_active then .error "User account is not active"
      else if user.token_version != t.claims.ver then .error "Token has been revoked"
      else .ok { user_id := user.id, email := user.email, roles := t.claims.roles,
                 token_version := user.token_version, is_active := user.is_active }

/-- `RbacPolicy.has_permission` (`src/app/domain/policies/rbac_policy.py`):
membership of the required code in the codes of the resolved permissions. -/
def has_permission (user_permissions : List Permission) (required_permission_code : String) :
    Bool :=
  user_permissions.any (fun p => p.code == required_permission_code)

/-- One `MemoryCache` entry: key, cached permission list, absolute expiry. -/
structure CacheEntry where
  key : String
  value : List Permission
  expires_at : Nat
  deriving Repr, DecidableEq

/-- Process-local permission cache (`src/app/infrastructure/caching/memory_cache.py`),
a dict keyed by string. -/
abbrev Cache := List CacheEntry

/-- `MemoryCache.get`: a present entry is returned while `now < expires_at`;
an expired entry is deleted and treated as a miss. Returns the value (if any)
and the possibly-shrunk cache. -/
def cache_get (c : Cache) (key : String) (now : Nat) : Option (List Permission) × Cache :=
  match c.find? (fun e => e.key == key) with
  | none => (none, c)
  | some e =>
    if now ≥ e.expires_at then (none, c.filter (fun e₂ => e₂.key != key))
    else (some e.value, c)

/-- `MemoryCache.set`: store the value under the key with expiry
`now + ttl_seconds`, replacing any previous entry for that key. -/
def cache_set (c : Cache) (key : String) (value : List Permission) (now ttl_seconds : Nat) :
    Cache :=
  c.filter (fun e => e.key != key) ++ [⟨key, value, now + ttl_seconds⟩]

/-- Cache key of `CheckPermissionUseCase._get_permissions_for_roles`:
`"permissions:" + ":".join(sorted(roles))`. Python's `sorted` on strings is
the unique ≤-sorted permutation, embedded via insertion sort. -/
def permissions_cache_key (roles : List String) : String :=
  "permissions:" ++ String.intercalate ":" (roles.insertionSort (· ≤ ·))

/-- Result of `_get_permissions_for_roles`: the resolved permissions, the
cache afterwards, and which branch ran (`cache_hit` is the `cached is not
None` early return, `store_queried` the database branch; with an empty role
list neither the cache nor the store is touched). -/
structure PermLookup where
  perms : List Permission
  cache : Cache
  cache_hit : Bool
  store_queried : Bool
  deriving Repr, DecidableEq

/-- `CheckPermissionUseCase._get_permissions_for_roles`
(`src/app/application/use_cases/rbac/check_permission.py`). `rbac` is the
aggregate `RbacRepository.get_permissions_for_roles` query the core consumes. -/
def get_permissions_for_roles (rbac : List String → List Permission)
    (cache_ttl_seconds : Nat) (cache : Cache) (roles : List String) (now : Nat) :
    PermLookup :=
  if roles.isEmpty then ⟨[], cache, false, false⟩
  else
    let key := permissions_cache_key roles
    match cache_get cache key now with
    | (some cached, c₂) => ⟨cached, c₂, true, false⟩
    | (none, c₂) =>
      let permissions := rbac roles
      ⟨permissions, cache_set c₂ key permissions now cache_ttl_seconds, false, true⟩

/-- Outcome of `CheckPermissionUseCase.execute`: the check result (`.error`
is `InsufficientPermissionsError`) plus the cache state and branch record. -/
structure CheckOutcome where
  result : Except Unit Unit
  cache : Cache
  cache_hit : Bool
  store_queried : Bool

/-- `CheckPermissionUseCase.execute`: resolve the permissions for the role
names (cached) and raise `InsufficientPermissionsError` when the required
code is absent. -/
def check_permission_execute (rbac : List String → List Permission)
    (cache_ttl_seconds : Nat) (cache : Cache) (roles : List String)
    (required_permission : String) (now : Nat) : CheckOutcome :=
  let look := get_permissions_for_roles rbac cache_ttl_seconds cache roles now
  if !has_permission look.perms required_permission then
    ⟨.error (), look.cache, look.cache_hit, look.store_queried⟩
  else
    ⟨.ok (), look.cache, look.cache_hit, look.store_queried⟩

/-- Ambient parameters shared by the auth use cases: the keyed token digest
and password hashing functions, the password verifier, and the token TTLs. -/
structure Env where
  hash_token : String → String
  hash_password : String → String
  verify_password : String → String → Bool
  access_ttl_min : Nat
  ttl_days : Nat

/-- One operation of the session core, carrying the inputs and the fresh
values (UUIDs, generated raw tokens) the environment supplies during the
call. -/
inductive CoreOp where
  | registerOp (email password : String) (now new_id : Nat)
  | loginOp (email password : String) (now new_tok_id new_fam_id : Nat) (new_raw : String)
  | refreshOp (raw : String) (now new_id : Nat) (new_raw : String)
  | logoutOp (raw : String) (now : Nat)
  | logoutAllOp (user_id now : Nat)
  | changePasswordOp (user_id : Nat) (old_password new_password : String) (now : Nat)

/-- Committed store after running one core operation (the use case's result
value is dropped; failed transactions roll back to the input store, except
for the reuse-detection remediation, which commits before failing). -/
def apply_op (env : Env) (op : CoreOp) (st : Store) : Store :=
  match op with
  | .registerOp email pw now nid =>
    (register_execute env.hash_password st email pw now nid).store
  | .loginOp email pw now ntid nfid nraw =>
    (login_execute env.hash_token env.verify_password env.access_ttl_min env.ttl_days
      st email pw now ntid nfid nraw).store
  | .refreshOp raw now nid nraw =>
    (refresh_execute env.hash_token env.access_ttl_min env.ttl_days
      st raw now nid nraw).store
  | .logoutOp raw now => logout_execute env.hash_token st raw now
  | .logoutAllOp uid now => (logout_all_execute st uid now).store
  | .changePasswordOp uid opw npw now =>
    (change_password_execute env.hash_password env.verify_password st uid opw npw now).store

section Fixtures

/-- Concrete keyed digest used by the closed witnesses. -/
def w_hash (s : String) : String := "h:" ++ s

/-- Concrete password verifier matching `w_hash` as the password hasher. -/
def w_verify (password digest : String) : Bool := digest == "h:" ++ password

/-- Concrete environment for the closed witnesses. -/
def w_env : Env :=
  { hash_token := w_hash, hash_password := w_hash, verify_password := w_verify,
    access_ttl_min := 15, ttl_days := 14 }

/-- Concrete user for the closed witnesses. -/
def w_user : User :=
  { id := 1, email := "user@example.com", password_hash := "h:Password1",
    is_active := true, is_verified := true, token_version := 3,
    created_at := 0, updated_at := 0 }

/-- Concrete ACTIVE refresh token owned by `w_user`. -/
def w_active_tok : RefreshToken :=
  { id := 10, user_id := 1, token_hash := "h:raw0", family_id := 5,
    issued_at := 0, expires_at := 1000, revoked_at := none,
    replaced_by_token_id := none }

/-- Concrete already-replaced refresh token in the same family. -/
def w_replaced_tok : RefreshToken :=
  { w_active_tok with id := 11, token_hash := "h:raw1",
                      replaced_by_token_id := some 12 }

/-- Concrete store holding `w_user` with one ACTIVE and one replaced token
of family 5, and one role assignment. -/
def w_store : Store :=
  { users := [w_user], tokens := [w_active_tok, w_replaced_tok],
    user_roles := [(1, ["admin"])] }

/-- Concrete RBAC aggregate query used by the cache witnesses. -/
def w_rbac (roles : List String) : List Permission :=
  if roles.contains "admin" then [⟨1, "products:write"⟩] else []

end Fixtures

/-! Helper lemmas shared by the claim theorems. -/

/-- Helper: mapping a function that leaves the search predicate invariant
commutes with `find?`. -/
theorem find?_map_pred_inv {α : Type} (f : α → α) (p : α → Bool)
    (h : ∀ a, p (f a) = p a) (l : List α) :
    (l.map f).find? p = (l.find? p).map f := by
  rw [List.find?_map]
  have hp : p ∘ f = p := funext h
  rw [hp]

/-- Helper: a hit in the first list is a hit in the concatenation. -/
theorem find?_append_of_some {α : Type} (p : α → Bool) (l₁ l₂ : List α) (a : α)
    (h : l₁.find? p = some a) : (l₁ ++ l₂).find? p = some a := by
  rw [List.find?_append, h]; rfl

/-- Helper: user lookup after `update_user` returns the looked-up row,
substituted when its id matches the updated row's id. -/
theorem get_user_by_id_update_user (us : List User) (u₀ : User) (uid : Nat) :
    get_user_by_id (update_user us u₀) uid
      = (get_user_by_id us uid).map (fun v => if v.id == u₀.id then u₀ else v) := by
  unfold get_user_by_id update_user
  apply find?_map_pred_inv
  intro a
  by_cases h : (a.id == u₀.id) = true
  · have ha : a.id = u₀.id := eq_of_beq h
    simp [h, ha]
  · simp [h]

/-- C2: the failure outcome of a Refresh call is decided by the first
matching condition in the fixed order — no stored digest match fails
NotFound; else expired at the clock time fails Expired; else revoked fails
Revoked; else replaced fails ReuseDetected. In particular a token both
expired and replaced fails Expired, and one both revoked and replaced fails
Revoked. -/
theorem refresh_error_priority (hash_token : String → String)
    (amin days : Nat) (st : Store) (raw : String) (now new_id : Nat) (new_raw : String) :
    (get_by_token_hash st.tokens (hash_token raw) = none →
      (refresh_execute hash_token amin days st raw now new_id new_raw).result
        = .error .tokenNotFound)
    ∧ (∀ old, get_by_token_hash st.tokens (hash_token raw) = some old →
        old.is_expired now = true →
        (refresh_execute hash_token amin days st raw now new_id new_raw).result
          = .error .tokenExpired)
    ∧ (∀ old, get_by_token_hash st.tokens (hash_token raw) = some old →
        old.is_expired now = false → old.is_revoked = true →
        (refresh_execute hash_token amin days st raw now new_id new_raw).result
          = .error .tokenRevoked)
    ∧ (∀ old, get_by_token_hash st.tokens (hash_token raw) = some old →
        old.is_expired now = false → old.is_revoked = false → old.is_replaced = true →
        (refresh_execute hash_token amin days st raw now new_id new_raw).result
          = .error .reuseDetected) := by
  refine ⟨?_, ?_, ?_, ?_⟩
  · intro h
    simp [refresh_execute, h]
  · intro old h hexp
    simp [refresh_execute, h, hexp]
  · intro old h hexp hrev
    simp [refresh_execute, h, hexp, hrev]
  · intro old h hexp hrev hrep
    simp [refresh_execute, h, hexp, hrev, hrep]

/-- Witness for `refresh_error_priority` at concrete inputs: a stored token
that is simultaneously expired, revoked and replaced fails Expired, and one
that is revoked and replaced (but unexpired) fails Revoked. -/
theorem refresh_error_priority_witness :
    (refresh_execute w_hash 15 14
        { w_store with tokens := [{ w_replaced_tok with expires_at := 40, revoked_at := some 30 }] }
        "raw1" 50 77 "fresh").result = .error .tokenExpired
    ∧ (refresh_execute w_hash 15 14
        { w_store with tokens := [{ w_replaced_tok with revoked_at := some 30 }] }
        "raw1" 50 77 "fresh").result = .error .tokenRevoked :=
  ⟨(refresh_error_priority w_hash 15 14
      { w_store with tokens := [{ w_replaced_tok with expires_at := 40, revoked_at := some 30 }] }
      "raw1" 50 77 "fresh").2.1
      { w_replaced_tok with expires_at := 40, revoked_at := some 30 }
      (by decide) (by decide),
   (refresh_error_priority w_hash 15 14
      { w_store with tokens := [{ w_replaced_tok with revoked_at := some 30 }] }
      "raw1" 50 77 "fresh").2.2.1
      { w_replaced_tok with revoked_at := some 30 }
      (by decide) (by decide) (by decide)⟩

/-- C1: presenting a replaced token (neither expired nor revoked) fails with
ReuseDetected, and the committed store already carries the remediation:
every token of the same family is revoked and the owning user's
token_version is incremented. The outcome couples the committed store with
the error, mirroring the commit-before-raise ordering of
`RefreshUseCase.execute`: rollback paths return the input store unchanged,
while this path returns the mutated store. -/
theorem reuse_detection_remediation (hash_token : String → String)
    (amin days : Nat) (st : Store) (raw : String) (now new_id : Nat) (new_raw : String)
    (old : RefreshToken) (u : User)
    (hfind : get_by_token_hash st.tokens (hash_token raw) = some old)
    (hexp : old.is_expired now = false)
    (hrev : old.is_revoked = false)
    (hrep : old.is_replaced = true)
    (huser : get_user_by_id st.users old.user_id = some u) :
    (refresh_execute hash_token amin days st raw now new_id new_raw).result
        = .error .reuseDetected
    ∧ (∀ t ∈ (refresh_execute hash_token amin days st raw now new_id new_raw).store.tokens,
        t.family_id = old.family_id → t.is_revoked = true)
    ∧ get_user_by_id
        (refresh_execute hash_token amin days st raw now new_id new_raw).store.users
        old.user_id
      = some (u.with_token_version_incremented now) := by
  have hout : refresh_execute hash_token amin days st raw now new_id new_raw
      = ⟨{ st with tokens := revoke_family st.tokens old.family_id now,
                   users := update_user st.users (u.with_token_version_incremented now) },
         .error .reuseDetected⟩ := by
    simp [refresh_execute, hfind, hexp, hrev, hrep, huser]
  refine ⟨by rw [hout], ?_, ?_⟩
  · intro t ht hfam
    rw [hout] at ht
    simp only [revoke_family] at ht
    rcases List.mem_map.1 ht with ⟨a, _, rfl⟩
    by_cases hc : (a.family_id == old.family_id && a.revoked_at.isNone) = true
    · simp [hc, RefreshToken.is_revoked]
    · simp only [hc, if_neg] at hfam ⊢
      simp only [Bool.and_eq_true, not_and] at hc
      have hfa : (a.family_id == old.family_id) = true := beq_iff_eq.2 (by simpa using hfam)
      have : ¬ a.revoked_at.isNone = true := by
        intro hn; exact absurd (hc hfa) (by simp [hn])
      simp [RefreshToken.is_revoked, Option.isSome_iff_ne_none]
      intro hnone
      exact this (by simp [hnone])
  · rw [hout]
    simp only
    rw [get_user_by_id_update_user, huser]
    simp [User.with_token_version_incremented]

/-- Witness for `reuse_detection_remediation` on the concrete store: the
replaced token of family 5 triggers ReuseDetected, the whole family is
revoked and the user's version is bumped from 3 to 4. -/
theorem reuse_detection_remediation_witness :
    (refresh_execute w_hash 15 14 w_store "raw1" 50 77 "fresh").result
        = .error .reuseDetected
    ∧ (∀ t ∈ (refresh_execute w_hash 15 14 w_store "raw1" 50 77 "fresh").store.tokens,
        t.family_id = w_replaced_tok.family_id → t.is_revoked = true)
    ∧ get_user_by_id (refresh_execute w_hash 15 14 w_store "raw1" 50 77 "fresh").store.users
        w_replaced_tok.user_id
      = some (w_user.with_token_version_incremented 50) :=
  reuse_detection_remediation w_hash 15 14 w_store "raw1" 50 77 "fresh"
    w_replaced_tok w_user (by decide) (by decide) (by decide) (by decide) (by decide)

/-- C3: refreshing an ACTIVE token of an active user succeeds, issuing an
access token at the user's current token_version, inserting a new refresh
row with the old token's family_id and expiry `now + days·86400`, and
setting the old row's replaced_by_token_id to the new row's id; both writes
appear in the single committed store of the outcome. The returned raw token
differs from the presented one. The freshness hypotheses stand for the
guarantees of `uuid4` and of the unique index on the digest column: the new
row id and the new digest do not collide with the presented row. -/
theorem refresh_active_rotation (hash_token : String → String)
    (amin days : Nat) (st : Store) (raw : String) (now new_id : Nat) (new_raw : String)
    (old : RefreshToken) (u : User)
    (hfind : get_by_token_hash st.tokens (hash_token raw) = some old)
    (hexp : old.is_expired now = false)
    (hrev : old.is_revoked = false)
    (hrep : old.is_replaced = false)
    (huser : get_user_by_id st.users old.user_id = some u)
    (hact : u.is_active = true)
    (hid : new_id ≠ old.id)
    (hfresh : hash_token new_raw ≠ old.token_hash) :
    ∃ r, (refresh_execute hash_token amin days st raw now new_id new_raw).result = .ok r
    ∧ r.access_token.ver = u.token_version
    ∧ r.access_token.sub = u.id
    ∧ r.refresh_token = new_raw
    ∧ new_raw ≠ raw
    ∧ (∃ nt ∈ (refresh_execute hash_token amin days st raw now new_id new_raw).store.tokens,
        nt.id = new_id ∧ nt.family_id = old.family_id
        ∧ nt.token_hash = hash_token new_raw ∧ nt.issued_at = now
        ∧ nt.expires_at = now + days * 86400
        ∧ nt.revoked_at = none ∧ nt.replaced_by_token_id = none)
    ∧ (∀ t ∈ (refresh_execute hash_token amin days st raw now new_id new_raw).store.tokens,
        t.id = old.id → t.replaced_by_token_id = some new_id) := by
  have huser' : st.users.find? (fun v => v.id == old.user_id) = some u := huser
  have hfind' : st.tokens.find? (fun t => t.token_hash == hash_token raw) = some old := hfind
  have huidb := List.find?_some huser'
  have hothb := List.find?_some hfind'
  have huid : u.id = old.user_id := eq_of_beq huidb
  have hoth : old.token_hash = hash_token raw := eq_of_beq hothb
  have hactb : (!u.is_active) = false := by rw [hact]; rfl
  set new_token : RefreshToken :=
    { id := new_id, user_id := u.id, token_hash := hash_token new_raw,
      family_id := old.family_id, issued_at := now,
      expires_at := now + days * 86400,
      revoked_at := none, replaced_by_token_id := none } with hnt
  have hout : refresh_execute hash_token amin days st raw now new_id new_raw
      = ⟨{ st with tokens := update_token (save_token st.tokens new_token)
                     (old.mark_as_replaced new_id) },
         .ok ⟨{ sub := u.id, roles := get_user_roles st u.id, ver := u.token_version,
                iat := now, exp := now + amin * 60 }, new_raw⟩⟩ := by
    simp [refresh_execute, hfind, hexp, hrev, hrep, huser, hactb, hnt,
      RefreshToken.mark_as_replaced]
  refine ⟨_, by rw [hout], rfl, rfl, rfl, ?_, ?_, ?_⟩
  · intro hcontra
    exact hfresh (by rw [hcontra, hoth])
  · refine ⟨new_token, ?_, rfl, rfl, rfl, rfl, rfl, rfl, rfl⟩
    rw [hout]
    simp only [update_token, save_token]
    have hmem : new_token ∈ st.tokens ++ [new_token] := by simp
    have hfix : (if (new_token.id == (old.mark_as_replaced new_id).id) = true
        then old.mark_as_replaced new_id else new_token) = new_token := by
      have hbid : (new_token.id == (old.mark_as_replaced new_id).id) = false := by
        simp [RefreshToken.mark_as_replaced, hnt]
        exact hid
      simp [hbid]
    exact List.mem_map.2 ⟨new_token, hmem, hfix⟩
  · intro t ht htid
    rw [hout] at ht
    simp only [update_token, save_token] at ht
    rcases List.mem_map.1 ht with ⟨a, _, rfl⟩
    by_cases hc : (a.id == (old.mark_as_replaced new_id).id) = true
    · simp only [hc, if_true]
      simp [RefreshToken.mark_as_replaced]
    · exfalso
      simp only [hc, if_neg] at htid
      simp only [RefreshToken.mark_as_replaced] at hc
      simp at htid hc
      exact hc htid

/-- Witness for `refresh_active_rotation` on the concrete store: refreshing
the ACTIVE token "raw0" rotates it into row 77 of the same family. -/
theorem refresh_active_rotation_witness :
    ∃ r, (refresh_execute w_hash 15 14 w_store "raw0" 50 77 "fresh").result = .ok r
    ∧ r.access_token.ver = w_user.token_version
    ∧ r.access_token.sub = w_user.id
    ∧ r.refresh_token = "fresh"
    ∧ "fresh" ≠ "raw0"
    ∧ (∃ nt ∈ (refresh_execute w_hash 15 14 w_store "raw0" 50 77 "fresh").store.tokens,
        nt.id = 77 ∧ nt.family_id = w_active_tok.family_id
        ∧ nt.token_hash = w_hash "fresh" ∧ nt.issued_at = 50
        ∧ nt.expires_at = 50 + 14 * 86400
        ∧ nt.revoked_at = none ∧ nt.replaced_by_token_id = none)
    ∧ (∀ t ∈ (refresh_execute w_hash 15 14 w_store "raw0" 50 77 "fresh").store.tokens,
        t.id = w_active_tok.id → t.replaced_by_token_id = some 77) :=
  refresh_active_rotation w_hash 15 14 w_store "raw0" 50 77 "fresh"
    w_active_tok w_user (by decide) (by decide) (by decide) (by decide) (by decide)
    (by decide) (by decide) (by decide)

/-- Helper: updating the row found at key `vid` with a row `b` of the same
id leaves any lookup either unchanged or returning `b`; in the latter case
the looked-up row was the updated one. -/
theorem get_user_by_id_after_update (us : List User) (uid vid : Nat) (u v b : User)
    (hu : get_user_by_id us uid = some u)
    (hv : get_user_by_id us vid = some v)
    (hbid : b.id = v.id) :
    get_user_by_id (update_user us b) uid = some u
    ∨ (get_user_by_id (update_user us b) uid = some b ∧ u = v) := by
  have hu' : us.find? (fun x => x.id == uid) = some u := hu
  have hv' : us.find? (fun x => x.id == vid) = some v := hv
  have h1b := List.find?_some hu'
  have h2b := List.find?_some hv'
  have h1 : u.id = uid := eq_of_beq h1b
  have h2 : v.id = vid := eq_of_beq h2b
  have hmap := get_user_by_id_update_user us b uid
  rw [hu] at hmap
  by_cases hc : (u.id == b.id) = true
  · right
    have hub : u.id = b.id := eq_of_beq hc
    have huv : uid = vid := by rw [← h1, hub, hbid, h2]
    have huveq : u = v := by
      rw [huv] at hu'
      rw [hu'] at hv'
      exact Option.some.inj hv'
    refine ⟨?_, huveq⟩
    rw [hmap]
    show some (if (u.id == b.id) = true then b else u) = some b
    rw [if_pos hc]
  · left
    rw [hmap]
    show some (if (u.id == b.id) = true then b else u) = some u
    rw [if_neg hc]

/-- C4: across every operation of the session core, a user's token_version
never decreases, and it changes only through a (successful) password change,
a logout-all, or the reuse-detection remediation of a refresh; every other
operation — registration, login, single logout, and every refresh that did
not detect reuse — leaves it unchanged. -/
theorem token_version_monotone (env : Env) (op : CoreOp) (st : Store) (uid : Nat) (u u' : User)
    (h : get_user_by_id st.users uid = some u)
    (h' : get_user_by_id (apply_op env op st).users uid = some u') :
    u.token_version ≤ u'.token_version
    ∧ (u'.token_version ≠ u.token_version →
        (∃ a b c d, op = .changePasswordOp a b c d)
        ∨ (∃ a b, op = .logoutAllOp a b)
        ∨ (∃ raw now nid nraw, op = .refreshOp raw now nid nraw
            ∧ (refresh_execute env.hash_token env.access_ttl_min env.ttl_days
                st raw now nid nraw).result = .error .reuseDetected)) := by
  cases op with
  | registerOp email pw now nid =>
    have hsame : get_user_by_id (apply_op env (.registerOp email pw now nid) st).users uid
        = some u := by
      simp only [apply_op, register_execute]
      split
      · exact h
      · split
        · exact h
        · split
          · exact h
          · split
            · exact h
            · exact find?_append_of_some _ _ _ _ h
    rw [hsame] at h'
    cases Option.some.inj h'
    exact ⟨le_refl _, fun hne => absurd rfl hne⟩
  | loginOp email pw now ntid nfid nraw =>
    have husers : (apply_op env (.loginOp email pw now ntid nfid nraw) st).users
        = st.users := by
      simp only [apply_op, login_execute]
      split
      · rfl
      · split
        · rfl
        · split
          · rfl
          · split
            · rfl
            · split
              · rfl
              · rfl
    rw [husers, h] at h'
    cases Option.some.inj h'
    exact ⟨le_refl _, fun hne => absurd rfl hne⟩
  | logoutOp raw now =>
    have husers : (apply_op env (.logoutOp raw now) st).users = st.users := by
      simp only [apply_op, logout_execute]
      split
      · rfl
      · rfl
    rw [husers, h] at h'
    cases Option.some.inj h'
    exact ⟨le_refl _, fun hne => absurd rfl hne⟩
  | logoutAllOp uid₂ now =>
    simp only [apply_op, logout_all_execute] at h'
    revert h'
    split
    · intro h'
      rw [h] at h'
      cases Option.some.inj h'
      exact ⟨le_refl _, fun hne => absurd rfl hne⟩
    · rename_i user₂ huser₂
      intro h'
      rcases get_user_by_id_after_update st.users uid uid₂ u user₂
          (user₂.with_token_version_incremented now) h huser₂ rfl with hcase | ⟨hcase, hueq⟩
      · rw [hcase] at h'
        cases Option.some.inj h'
        exact ⟨le_refl _, fun hne => absurd rfl hne⟩
      · rw [hcase] at h'
        cases Option.some.inj h'
        subst hueq
        exact ⟨Nat.le_succ _, fun _ => Or.inr (Or.inl ⟨uid₂, now, rfl⟩)⟩
  | changePasswordOp uid₂ opw npw now =>
    simp only [apply_op, change_password_execute] at h'
    revert h'
    split
    · intro h'
      rw [h] at h'
      cases Option.some.inj h'
      exact ⟨le_refl _, fun hne => absurd rfl hne⟩
    · split
      · intro h'
        rw [h] at h'
        cases Option.some.inj h'
        exact ⟨le_refl _, fun hne => absurd rfl hne⟩
      · rename_i user₂ huser₂
        split
        · intro h'
          rw [h] at h'
          cases Option.some.inj h'
          exact ⟨le_refl _, fun hne => absurd rfl hne⟩
        · intro h'
          rcases get_user_by_id_after_update st.users uid uid₂ u user₂
              (user₂.with_new_password (env.hash_password npw) now) h huser₂ rfl
            with hcase | ⟨hcase, hueq⟩
          · rw [hcase] at h'
            cases Option.some.inj h'
            exact ⟨le_refl _, fun hne => absurd rfl hne⟩
          · rw [hcase] at h'
            cases Option.some.inj h'
            subst hueq
            exact ⟨Nat.le_succ _, fun _ => Or.inl ⟨uid₂, opw, npw, now, rfl⟩⟩
  | refreshOp raw now nid nraw =>
    simp only [apply_op, refresh_execute] at h'
    revert h'
    split
    · intro h'
      rw [h] at h'
      cases Option.some.inj h'
      exact ⟨le_refl _, fun hne => absurd rfl hne⟩
    · rename_i old hfind
      split
      · intro h'
        rw [h] at h'
        cases Option.some.inj h'
        exact ⟨le_refl _, fun hne => absurd rfl hne⟩
      · rename_i hexp
        split
        · intro h'
          rw [h] at h'
          cases Option.some.inj h'
          exact ⟨le_refl _, fun hne => absurd rfl hne⟩
        · rename_i hrev
          split
          · rename_i hrep
            have hres : (refresh_execute env.hash_token env.access_ttl_min env.ttl_days
                st raw now nid nraw).result = .error .reuseDetected := by
              simp [refresh_execute, hfind, hexp, hrev, hrep]
            revert hres
            split
            · rename_i user₂ huser₂
              intro hres h'
              rcases get_user_by_id_after_update st.users uid old.user_id u user₂
                  (user₂.with_token_version_incremented now) h huser₂ rfl
                with hcase | ⟨hcase, hueq⟩
              · rw [hcase] at h'
                cases Option.some.inj h'
                exact ⟨le_refl _, fun hne => absurd rfl hne⟩
              · rw [hcase] at h'
                cases Option.some.inj h'
                subst hueq
                exact ⟨Nat.le_succ _,
                  fun _ => Or.inr (Or.inr ⟨raw, now, nid, nraw, rfl, hres⟩)⟩
            · intro hres h'
              rw [h] at h'
              cases Option.some.inj h'
              exact ⟨le_refl _, fun hne => absurd rfl hne⟩
          · split
            · intro h'
              rw [h] at h'
              cases Option.some.inj h'
              exact ⟨le_refl _, fun hne => absurd rfl hne⟩
            · split
              · intro h'
                rw [h] at h'
                cases Option.some.inj h'
                exact ⟨le_refl _, fun hne => absurd rfl hne⟩
              · intro h'
                rw [h] at h'
                cases Option.some.inj h'
                exact ⟨le_refl _, fun hne => absurd rfl hne⟩

/-- Witness for `token_version_monotone` at concrete inputs: logout-all on
the concrete store bumps the user's version from 3 to 4, and the theorem
attributes the change to the logout-all operation. -/
theorem token_version_monotone_witness :
    w_user.token_version ≤ (w_user.with_token_version_incremented 60).token_version
    ∧ ((w_user.with_token_version_incremented 60).token_version ≠ w_user.token_version →
        (∃ a b c d, CoreOp.logoutAllOp 1 60 = .changePasswordOp a b c d)
        ∨ (∃ a b, CoreOp.logoutAllOp 1 60 = .logoutAllOp a b)
        ∨ (∃ raw now nid nraw, CoreOp.logoutAllOp 1 60 = .refreshOp raw now nid nraw
            ∧ (refresh_execute w_env.hash_token w_env.access_ttl_min w_env.ttl_days
                w_store raw now nid nraw).result = .error .reuseDetected)) :=
  token_version_monotone w_env (.logoutAllOp 1 60) w_store 1 w_user
    (w_user.with_token_version_incremented 60) (by decide) (by decide)

/-- C5: the per-request gate rejects as unauthorized every access token whose
version claim differs from the user's current token_version, even with
signature, issuer, audience and expiry all valid; consequently a token
issued at the user's current version is rejected immediately after a
successful password change, a logout-all, or a reuse-detection remediation
affecting that user, each of which increments token_version. -/
theorem access_token_version_gate (st : Store) (t : PresentedToken)
    (hok : verify_access_token t = true) :
    (∀ u, get_user_by_id st.users t.claims.sub = some u →
      t.claims.ver ≠ u.token_version →
      ∃ msg, get_current_principal st t = .error msg)
    ∧ (∀ u hp vp opw npw now,
        get_user_by_id st.users t.claims.sub = some u →
        t.claims.ver = u.token_version →
        (change_password_execute hp vp st t.claims.sub opw npw now).result = .ok () →
        ∃ msg, get_current_principal
          (change_password_execute hp vp st t.claims.sub opw npw now).store t = .error msg)
    ∧ (∀ u now,
        get_user_by_id st.users t.claims.sub = some u →
        t.claims.ver = u.token_version →
        (logout_all_execute st t.claims.sub now).result = .ok () →
        ∃ msg, get_current_principal (logout_all_execute st t.claims.sub now).store t
          = .error msg)
    ∧ (∀ u h_t amin days raw now nid nraw old,
        get_user_by_id st.users t.claims.sub = some u →
        t.claims.ver = u.token_version →
        get_by_token_hash st.tokens (h_t raw) = some old →
        old.user_id = t.claims.sub →
        old.is_expired now = false → old.is_revoked = false → old.is_replaced = true →
        ∃ msg, get_current_principal
          (refresh_execute h_t amin days st raw now nid nraw).store t = .error msg) := by
  have gate : ∀ (st₂ : Store), ∀ u₂, get_user_by_id st₂.users t.claims.sub = some u₂ →
      t.claims.ver ≠ u₂.token_version →
      ∃ msg, get_current_principal st₂ t = .error msg := by
    intro st₂ u₂ hu₂ hne
    unfold get_current_principal
    rw [hok]
    simp only [Bool.not_true, Bool.false_eq_true, if_false, hu₂]
    by_cases hact : (!u₂.is_active) = true
    · exact ⟨"User account is not active", by simp [hact]⟩
    · refine ⟨"Token has been revoked", ?_⟩
      have hne' : (u₂.token_version != t.claims.ver) = true := by
        simp [bne_iff_ne]
        exact fun hcontra => hne hcontra.symm
      simp [hact, hne']
  refine ⟨fun u hu hne => gate st u hu hne, ?_, ?_, ?_⟩
  · intro u hp vp opw npw now hu hver hres
    have hform : ∃ u₀, get_user_by_id st.users t.claims.sub = some u₀
        ∧ (change_password_execute hp vp st t.claims.sub opw npw now).store.users
          = update_user st.users (u₀.with_new_password (hp npw) now) := by
      revert hres
      unfold change_password_execute
      split
      · intro hres; exact absurd hres (by simp)
      · split
        · intro hres; exact absurd hres (by simp)
        · rename_i u₀ hu₀
          split
          · intro hres; exact absurd hres (by simp)
          · intro _; exact ⟨u₀, hu₀, rfl⟩
    rcases hform with ⟨u₀, hu₀, husers⟩
    have : u₀ = u := Option.some.inj (hu₀.symm.trans hu)
    subst this
    have hb := get_user_by_id_update_user st.users (u₀.with_new_password (hp npw) now)
      t.claims.sub
    rw [hu, ← husers] at hb
    have hfound : get_user_by_id
        (change_password_execute hp vp st t.claims.sub opw npw now).store.users
        t.claims.sub = some (u₀.with_new_password (hp npw) now) := by
      rw [hb]
      show some (if (u₀.id == (u₀.with_new_password (hp npw) now).id) = true
        then u₀.with_new_password (hp npw) now else u₀) = _
      rw [if_pos (by simp [User.with_new_password])]
    refine gate _ _ hfound ?_
    simp only [User.with_new_password, hver]
    omega
  · intro u now hu hver hres
    have hform : ∃ u₀, get_user_by_id st.users t.claims.sub = some u₀
        ∧ (logout_all_execute st t.claims.sub now).store.users
          = update_user st.users (u₀.with_token_version_incremented now) := by
      revert hres
      unfold logout_all_execute
      split
      · intro hres; exact absurd hres (by simp)
      · rename_i u₀ hu₀
        intro _; exact ⟨u₀, hu₀, rfl⟩
    rcases hform with ⟨u₀, hu₀, husers⟩
    have : u₀ = u := Option.some.inj (hu₀.symm.trans hu)
    subst this
    have hb := get_user_by_id_update_user st.users (u₀.with_token_version_incremented now)
      t.claims.sub
    rw [hu, ← husers] at hb
    have hfound : get_user_by_id (logout_all_execute st t.claims.sub now).store.users
        t.claims.sub = some (u₀.with_token_version_incremented now) := by
      rw [hb]
      show some (if (u₀.id == (u₀.with_token_version_incremented now).id) = true
        then u₀.with_token_version_incremented now else u₀) = _
      rw [if_pos (by simp [User.with_token_version_incremented])]
    refine gate _ _ hfound ?_
    simp only [User.with_token_version_incremented, hver]
    omega
  · intro u h_t amin days raw now nid nraw old hu hver hfind hown hexp hrev hrep
    have hu' : get_user_by_id st.users old.user_id = some u := by rw [hown]; exact hu
    have hout : (refresh_execute h_t amin days st raw now nid nraw).store.users
        = update_user st.users (u.with_token_version_incremented now) := by
      simp [refresh_execute, hfind, hexp, hrev, hrep, hu']
    have hb := get_user_by_id_update_user st.users (u.with_token_version_incremented now)
      t.claims.sub
    rw [hu, ← hout] at hb
    have hfound : get_user_by_id (refresh_execute h_t amin days st raw now nid nraw).store.users
        t.claims.sub = some (u.with_token_version_incremented now) := by
      rw [hb]
      show some (if (u.id == (u.with_token_version_incremented now).id) = true
        then u.with_token_version_incremented now else u) = _
      rw [if_pos (by simp [User.with_token_version_incremented])]
    refine gate _ _ hfound ?_
    simp only [User.with_token_version_incremented, hver]
    omega

/-- Witness for `access_token_version_gate` at concrete inputs: a token with
valid signature, issuer, audience and expiry but version claim 2 against the
concrete user's version 3 is rejected, and a token carrying the current
version 3 is rejected right after logout-all. -/
theorem access_token_version_gate_witness :
    (∃ msg, get_current_principal w_store
      ⟨{ sub := 1, roles := ["admin"], ver := 2, iat := 0, exp := 900 },
       true, true, true, true, true⟩ = .error msg)
    ∧ (∃ msg, get_current_principal (logout_all_execute w_store 1 60).store
      ⟨{ sub := 1, roles := ["admin"], ver := 3, iat := 0, exp := 900 },
       true, true, true, true, true⟩ = .error msg) :=
  ⟨(access_token_version_gate w_store
      ⟨{ sub := 1, roles := ["admin"], ver := 2, iat := 0, exp := 900 },
       true, true, true, true, true⟩ (by decide)).1 w_user (by decide) (by decide),
   (access_token_version_gate w_store
      ⟨{ sub := 1, roles := ["admin"], ver := 3, iat := 0, exp := 900 },
       true, true, true, true, true⟩ (by decide)).2.2.1 w_user 60 (by decide) (by decide)
      rfl⟩

/-- Counterexample to C6 as stated: Logout is not store-idempotent. On the
concrete store, logging the ACTIVE token out at time 1 sets revoked_at = 1,
and a second Logout of the same token at time 2 overwrites revoked_at with 2
(`revoke_by_token_hash` has no `revoked_at IS NULL` guard), so the store
after the second call differs from the store after the first. -/
theorem logout_second_call_changes_store :
    logout_execute w_hash (logout_execute w_hash w_store "raw0" 1) "raw0" 2
      ≠ logout_execute w_hash w_store "raw0" 1 := by decide

/-- C6 (amended): Logout always succeeds — a missing digest leaves the store
untouched (already logged out) — and a second Logout of the same token also
succeeds and leaves the token REVOKED, but it overwrites revoked_at with the
second call's clock time; the store is unchanged from the first call only
when the clock has not advanced. In the model `logout_execute` is a total
function into stores, so "succeeds without error" is inherent. -/
theorem logout_idempotent_success (h_t : String → String) (st : Store) (raw : String)
    (now₁ now₂ : Nat) :
    (get_by_token_hash st.tokens (h_t raw) = none → logout_execute h_t st raw now₁ = st)
    ∧ (∀ tok, get_by_token_hash st.tokens (h_t raw) = some tok →
        (∀ t ∈ (logout_execute h_t (logout_execute h_t st raw now₁) raw now₂).tokens,
            t.token_hash = h_t raw → t.revoked_at = some now₂ ∧ t.is_revoked = true)
        ∧ (now₂ = now₁ →
            logout_execute h_t (logout_execute h_t st raw now₁) raw now₂
              = logout_execute h_t st raw now₁)) := by
  have hget : ∀ (ts : List RefreshToken) (now : Nat),
      get_by_token_hash (revoke_by_token_hash ts (h_t raw) now) (h_t raw)
        = (get_by_token_hash ts (h_t raw)).map
            (fun a => if a.token_hash == h_t raw then { a with revoked_at := some now } else a) := by
    intro ts now
    unfold get_by_token_hash revoke_by_token_hash
    apply find?_map_pred_inv
    intro a
    by_cases hc : (a.token_hash == h_t raw) = true <;> simp [hc]
  constructor
  · intro hnone
    simp [logout_execute, hnone]
  · intro tok htok
    have h1 : logout_execute h_t st raw now₁
        = { st with tokens := revoke_by_token_hash st.tokens (h_t raw) now₁ } := by
      simp [logout_execute, htok]
    have h1find : ∃ tok₂, get_by_token_hash
        (revoke_by_token_hash st.tokens (h_t raw) now₁) (h_t raw) = some tok₂ := by
      rw [hget st.tokens now₁, htok]
      exact ⟨_, rfl⟩
    rcases h1find with ⟨tok₂, h1find⟩
    have h2 : logout_execute h_t (logout_execute h_t st raw now₁) raw now₂
        = { st with tokens := revoke_by_token_hash (revoke_by_token_hash st.tokens (h_t raw) now₁) (h_t raw) now₂ } := by
      rw [h1]
      simp [logout_execute, h1find]
    constructor
    · intro t ht hth
      rw [h2] at ht
      simp only [revoke_by_token_hash, List.map_map] at ht
      rcases List.mem_map.1 ht with ⟨a, -, rfl⟩
      simp only [Function.comp] at hth ⊢
      by_cases hc : (a.token_hash == h_t raw) = true
      · rw [if_pos hc]
        have hh : ((({ a with revoked_at := some now₁ } : RefreshToken)).token_hash
            == h_t raw) = true := hc
        rw [if_pos hh]
        exact ⟨rfl, rfl⟩
      · rw [if_neg hc] at hth
        rw [if_neg hc] at hth
        exact absurd hth (by simpa using hc)
    · intro hnow
      subst hnow
      rw [h2, h1]
      have hmm : revoke_by_token_hash (revoke_by_token_hash st.tokens (h_t raw) now₂) (h_t raw) now₂ = revoke_by_token_hash st.tokens (h_t raw) now₂ := by
        unfold revoke_by_token_hash
        rw [List.map_map]
        apply List.map_congr_left
        intro a _
        simp only [Function.comp]
        by_cases hc : (a.token_hash == h_t raw) = true
        · rw [if_pos hc]
          have hh : ((({ a with revoked_at := some now₂ } : RefreshToken)).token_hash
              == h_t raw) = true := hc
          rw [if_pos hh]
        · rw [if_neg hc]
          rw [if_neg hc]
      rw [hmm]

/-- Witness for `logout_idempotent_success` on the concrete store: logging
out a digest with no stored row leaves the store unchanged, and a repeated
logout of the stored token leaves it revoked at the later clock time. -/
theorem logout_idempotent_success_witness :
    (get_by_token_hash w_store.tokens (w_hash "ghost") = none →
      logout_execute w_hash w_store "ghost" 1 = w_store)
    ∧ (∀ t ∈ (logout_execute w_hash (logout_execute w_hash w_store "raw0" 1) "raw0" 2).tokens,
        t.token_hash = w_hash "raw0" → t.revoked_at = some 2 ∧ t.is_revoked = true) :=
  ⟨(logout_idempotent_success w_hash w_store "ghost" 1 0).1,
   ((logout_idempotent_success w_hash w_store "raw0" 1 2).2 w_active_tok (by decide)).1⟩

/-- C7: a Login with an email matching no user fails with exactly the same
generic invalid-credentials error (same constructor, same message) as a
Login with an existing user's email but a wrong password, leaving no
user-enumeration signal in the outcome. The two runs are quantified over
independent stores and inputs, and the stores are returned unchanged. -/
theorem login_no_enumeration_signal (h_t : String → String)
    (vp : String → String → Bool) (amin days : Nat)
    (st₁ st₂ : Store) (email₁ pw₁ email₂ pw₂ : String)
    (now₁ ntid₁ nfid₁ : Nat) (nraw₁ : String)
    (now₂ ntid₂ nfid₂ : Nat) (nraw₂ : String) (u : User)
    (hv₁ : email_valid email₁ = true)
    (hn₁ : email_valid (email_normalize email₁) = true)
    (hmiss : get_user_by_email st₁.users (email_normalize email₁) = none)
    (hv₂ : email_valid email₂ = true)
    (hn₂ : email_valid (email_normalize email₂) = true)
    (hfound : get_user_by_email st₂.users (email_normalize email₂) = some u)
    (hwrong : vp pw₂ u.password_hash = false) :
    (login_execute h_t vp amin days st₁ email₁ pw₁ now₁ ntid₁ nfid₁ nraw₁).result
        = .error (.invalidCredentials "Invalid email or password")
    ∧ (login_execute h_t vp amin days st₂ email₂ pw₂ now₂ ntid₂ nfid₂ nraw₂).result
        = .error (.invalidCredentials "Invalid email or password")
    ∧ (login_execute h_t vp amin days st₁ email₁ pw₁ now₁ ntid₁ nfid₁ nraw₁).result
        = (login_execute h_t vp amin days st₂ email₂ pw₂ now₂ ntid₂ nfid₂ nraw₂).result
    ∧ (login_execute h_t vp amin days st₁ email₁ pw₁ now₁ ntid₁ nfid₁ nraw₁).store = st₁
    ∧ (login_execute h_t vp amin days st₂ email₂ pw₂ now₂ ntid₂ nfid₂ nraw₂).store = st₂ := by
  have r₁ : login_execute h_t vp amin days st₁ email₁ pw₁ now₁ ntid₁ nfid₁ nraw₁
      = ⟨st₁, .error (.invalidCredentials "Invalid email or password")⟩ := by
    simp [login_execute, hv₁, hn₁, hmiss]
  have r₂ : login_execute h_t vp amin days st₂ email₂ pw₂ now₂ ntid₂ nfid₂ nraw₂
      = ⟨st₂, .error (.invalidCredentials "Invalid email or password")⟩ := by
    simp [login_execute, hv₂, hn₂, hfound, hwrong]
  exact ⟨by rw [r₁], by rw [r₂], by rw [r₁, r₂], by rw [r₁], by rw [r₂]⟩

/-- Witness for `login_no_enumeration_signal` at concrete inputs: an unknown
address and a wrong password against the stored user produce the identical
generic error. -/
theorem login_no_enumeration_signal_witness :
    (login_execute w_hash w_verify 15 14 w_store "nobody@example.com" "Whatever1"
        100 21 22 "r1").result
      = .error (.invalidCredentials "Invalid email or password")
    ∧ (login_execute w_hash w_verify 15 14 w_store "user@example.com" "WrongPass9"
        100 23 24 "r2").result
      = .error (.invalidCredentials "Invalid email or password")
    ∧ (login_execute w_hash w_verify 15 14 w_store "nobody@example.com" "Whatever1"
        100 21 22 "r1").result
      = (login_execute w_hash w_verify 15 14 w_store "user@example.com" "WrongPass9"
        100 23 24 "r2").result
    ∧ (login_execute w_hash w_verify 15 14 w_store "nobody@example.com" "Whatever1"
        100 21 22 "r1").store = w_store
    ∧ (login_execute w_hash w_verify 15 14 w_store "user@example.com" "WrongPass9"
        100 23 24 "r2").store = w_store :=
  login_no_enumeration_signal w_hash w_verify 15 14 w_store w_store
    "nobody@example.com" "Whatever1" "user@example.com" "WrongPass9"
    100 21 22 "r1" 100 23 24 "r2" w_user
    (by decide) (by decide) (by decide) (by decide) (by decide) (by decide) (by decide)

/-- Helper: the canonical cache key is invariant under permuting the role
list, since insertion sort of a permutation of a list of strings yields the
same sorted list. -/
theorem permissions_cache_key_perm (roles₁ roles₂ : List String)
    (h : List.Perm roles₁ roles₂) :
    permissions_cache_key roles₁ = permissions_cache_key roles₂ := by
  unfold permissions_cache_key
  congr 2
  exact List.eq_of_perm_of_sorted
    (((List.perm_insertionSort _ roles₁).trans h).trans
      (List.perm_insertionSort _ roles₂).symm)
    (List.sorted_insertionSort _ roles₁)
    (List.sorted_insertionSort _ roles₂)

/-- Helper: after `cache_set`, looking the key up finds exactly the freshly
stored entry. -/
theorem find?_cache_set (l : Cache) (key : String) (v : List Permission) (x : Nat) :
    (l.filter (fun (c : CacheEntry) => c.key != key)
        ++ [(⟨key, v, x⟩ : CacheEntry)]).find? (fun (c : CacheEntry) => c.key == key)
      = some (⟨key, v, x⟩ : CacheEntry) := by
  rw [List.find?_append]
  have hnone : (l.filter (fun (c : CacheEntry) => c.key != key)).find?
      (fun (c : CacheEntry) => c.key == key) = none := by
    rw [List.find?_eq_none]
    intro c hc
    have := (List.mem_filter.1 hc).2
    simpa using this
  rw [hnone]
  simp [List.find?, Option.none_or]

/-- Helper for C8: after a first permission resolution for a nonempty role
list, the resolved value sits in the cache under the canonical key until
some expiry E past now₁ (E = now₁ + ttl whenever the first call had to query
the store), and until E every later resolution of any permutation of the
roles is a pure cache hit returning the same permissions against any RBAC
mapping, leaving the cache untouched and never querying the store. -/
theorem get_permissions_second_call_cached (rbac₁ : List String → List Permission)
    (ttl : Nat) (cache : Cache) (roles₁ : List String) (now₁ : Nat)
    (hne : roles₁ ≠ []) (httl : 0 < ttl) :
    ∃ E, now₁ < E
    ∧ ((get_permissions_for_roles rbac₁ ttl cache roles₁ now₁).store_queried = true →
        E = now₁ + ttl)
    ∧ ∀ (rbac₂ : List String → List Permission) (roles₂ : List String) (now₂ : Nat),
        List.Perm roles₁ roles₂ → now₂ < E →
        get_permissions_for_roles rbac₂ ttl
            (get_permissions_for_roles rbac₁ ttl cache roles₁ now₁).cache roles₂ now₂
          = ⟨(get_permissions_for_roles rbac₁ ttl cache roles₁ now₁).perms,
             (get_permissions_for_roles rbac₁ ttl cache roles₁ now₁).cache, true, false⟩ := by
  have hne' : roles₁.isEmpty = false := by
    cases roles₁ with
    | nil => exact absurd rfl hne
    | cons a l => rfl
  have hne₂ : ∀ (roles₂ : List String), List.Perm roles₁ roles₂ → roles₂.isEmpty = false := by
    intro roles₂ hp
    cases h2 : roles₂ with
    | nil => exact absurd (List.Perm.eq_nil (h2 ▸ hp)) hne
    | cons a l => rfl
  rcases hf : cache.find? (fun (c : CacheEntry) => c.key == permissions_cache_key roles₁)
    with _ | e
  · -- no entry at all: the first call queries the store and populates
    have hget₁ : cache_get cache (permissions_cache_key roles₁) now₁ = (none, cache) := by
      unfold cache_get
      rw [hf]
    have h1 : get_permissions_for_roles rbac₁ ttl cache roles₁ now₁
        = ⟨rbac₁ roles₁,
           cache_set cache (permissions_cache_key roles₁) (rbac₁ roles₁) now₁ ttl,
           false, true⟩ := by
      simp [get_permissions_for_roles, hne', hget₁]
    refine ⟨now₁ + ttl, by omega, fun _ => rfl, ?_⟩
    intro rbac₂ roles₂ now₂ hp hlt
    have hkey := permissions_cache_key_perm roles₁ roles₂ hp
    have hget₂ : cache_get
        (cache_set cache (permissions_cache_key roles₁) (rbac₁ roles₁) now₁ ttl)
        (permissions_cache_key roles₁) now₂
        = (some (rbac₁ roles₁),
           cache_set cache (permissions_cache_key roles₁) (rbac₁ roles₁) now₁ ttl) := by
      unfold cache_get cache_set
      rw [find?_cache_set cache (permissions_cache_key roles₁) (rbac₁ roles₁) (now₁ + ttl)]
      dsimp only
      have hc2 : ¬ (now₂ ≥ (⟨permissions_cache_key roles₁, rbac₁ roles₁, now₁ + ttl⟩
          : CacheEntry).expires_at) := by
        show ¬ (now₂ ≥ now₁ + ttl)
        omega
      rw [if_neg hc2]
    rw [h1]
    simp [get_permissions_for_roles, hne₂ roles₂ hp, ← hkey, hget₂]
  · -- an entry exists: expired or live
    by_cases hex : now₁ ≥ e.expires_at
    · -- expired: dropped, then the store is queried and the cache repopulated
      have hget₁ : cache_get cache (permissions_cache_key roles₁) now₁
          = (none, cache.filter
              (fun (c : CacheEntry) => c.key != permissions_cache_key roles₁)) := by
        unfold cache_get
        rw [hf]
        dsimp only
        rw [if_pos hex]
      have h1 : get_permissions_for_roles rbac₁ ttl cache roles₁ now₁
          = ⟨rbac₁ roles₁,
             cache_set
               (cache.filter (fun (c : CacheEntry) => c.key != permissions_cache_key roles₁))
               (permissions_cache_key roles₁) (rbac₁ roles₁) now₁ ttl,
             false, true⟩ := by
        simp [get_permissions_for_roles, hne', hget₁]
      refine ⟨now₁ + ttl, by omega, fun _ => rfl, ?_⟩
      intro rbac₂ roles₂ now₂ hp hlt
      have hkey := permissions_cache_key_perm roles₁ roles₂ hp
      have hget₂ : cache_get
          (cache_set
            (cache.filter (fun (c : CacheEntry) => c.key != permissions_cache_key roles₁))
            (permissions_cache_key roles₁) (rbac₁ roles₁) now₁ ttl)
          (permissions_cache_key roles₁) now₂
          = (some (rbac₁ roles₁),
             cache_set
               (cache.filter (fun (c : CacheEntry) => c.key != permissions_cache_key roles₁))
               (permissions_cache_key roles₁) (rbac₁ roles₁) now₁ ttl) := by
        unfold cache_get cache_set
        rw [find?_cache_set
          (cache.filter (fun (c : CacheEntry) => c.key != permissions_cache_key roles₁))
          (permissions_cache_key roles₁) (rbac₁ roles₁) (now₁ + ttl)]
        dsimp only
        have hc2 : ¬ (now₂ ≥ (⟨permissions_cache_key roles₁, rbac₁ roles₁, now₁ + ttl⟩
            : CacheEntry).expires_at) := by
          show ¬ (now₂ ≥ now₁ + ttl)
          omega
        rw [if_neg hc2]
      rw [h1]
      simp [get_permissions_for_roles, hne₂ roles₂ hp, ← hkey, hget₂]
    · -- live entry: the first call is itself a hit; E is the entry's expiry
      have hget₁ : cache_get cache (permissions_cache_key roles₁) now₁
          = (some e.value, cache) := by
        unfold cache_get
        rw [hf]
        dsimp only
        rw [if_neg hex]
      have h1 : get_permissions_for_roles rbac₁ ttl cache roles₁ now₁
          = ⟨e.value, cache, true, false⟩ := by
        simp [get_permissions_for_roles, hne', hget₁]
      refine ⟨e.expires_at, by omega, ?_, ?_⟩
      · intro hq
        rw [h1] at hq
        exact absurd hq (by simp)
      · intro rbac₂ roles₂ now₂ hp hlt
        have hkey := permissions_cache_key_perm roles₁ roles₂ hp
        have hget₂ : cache_get cache (permissions_cache_key roles₁) now₂
            = (some e.value, cache) := by
          unfold cache_get
          rw [hf]
          dsimp only
          rw [if_neg (show ¬ (now₂ ≥ e.expires_at) by omega)]
        rw [h1]
        simp [get_permissions_for_roles, hne₂ roles₂ hp, ← hkey, hget₂]

/-- Counterexample to C8 as stated for the empty role list: the claim
quantifies over every role list, but with no roles the use case
short-circuits before the cache, so while the two calls do return identical
results without querying the store, the second call is not served from the
cache (no hit, and the cache is still empty after both calls). -/
theorem check_permission_empty_roles_not_cached :
    (check_permission_execute w_rbac 300
        (check_permission_execute w_rbac 300 [] [] "products:write" 0).cache
        [] "products:write" 1).cache_hit = false
    ∧ (check_permission_execute w_rbac 300
        (check_permission_execute w_rbac 300 [] [] "products:write" 0).cache
        [] "products:write" 1).cache = [] := ⟨rfl, rfl⟩

/-- C8 (amended): for every nonempty role list, once a permission check has
resolved the role set at now₁ there is an expiry E > now₁ (E = now₁ + ttl
whenever that call had to query the store) such that any later check of any
permutation of the same role set before E returns the identical result for
the same required code, is served from the cache without querying the RBAC
store, and does so for every RBAC mapping — in particular even if the
role→permission mapping changed in between. The empty role list is the
exception recorded by the counterexample: both calls agree but bypass the
cache entirely. -/
theorem check_permission_cache_ttl_consistency (rbac₁ : List String → List Permission)
    (ttl : Nat) (cache : Cache) (roles₁ roles₂ : List String) (req : String) (now₁ : Nat)
    (hne : roles₁ ≠ []) (hperm : List.Perm roles₁ roles₂) (httl : 0 < ttl) :
    ∃ E, now₁ < E
    ∧ ((check_permission_execute rbac₁ ttl cache roles₁ req now₁).store_queried = true →
        E = now₁ + ttl)
    ∧ ∀ (rbac₂ : List String → List Permission) (now₂ : Nat), now₂ < E →
        (check_permission_execute rbac₂ ttl
            (check_permission_execute rbac₁ ttl cache roles₁ req now₁).cache
            roles₂ req now₂).result
          = (check_permission_execute rbac₁ ttl cache roles₁ req now₁).result
        ∧ (check_permission_execute rbac₂ ttl
            (check_permission_execute rbac₁ ttl cache roles₁ req now₁).cache
            roles₂ req now₂).cache_hit = true
        ∧ (check_permission_execute rbac₂ ttl
            (check_permission_execute rbac₁ ttl cache roles₁ req now₁).cache
            roles₂ req now₂).store_queried = false := by
  rcases get_permissions_second_call_cached rbac₁ ttl cache roles₁ now₁ hne httl
    with ⟨E, hE, hEq, hsecond⟩
  have hproj : ∀ (rb : List String → List Permission) (c : Cache) (r : List String) (n : Nat),
      (check_permission_execute rb ttl c r req n).cache
        = (get_permissions_for_roles rb ttl c r n).cache
      ∧ (check_permission_execute rb ttl c r req n).cache_hit
        = (get_permissions_for_roles rb ttl c r n).cache_hit
      ∧ (check_permission_execute rb ttl c r req n).store_queried
        = (get_permissions_for_roles rb ttl c r n).store_queried := by
    intro rb c r n
    unfold check_permission_execute
    dsimp only
    split <;> exact ⟨rfl, rfl, rfl⟩
  have hres : ∀ (rb : List String → List Permission) (c : Cache) (r : List String) (n : Nat),
      (check_permission_execute rb ttl c r req n).result
        = (if !has_permission (get_permissions_for_roles rb ttl c r n).perms req
            then .error () else .ok ()) := by
    intro rb c r n
    unfold check_permission_execute
    dsimp only
    split
    · rfl
    · rfl
  refine ⟨E, hE, ?_, ?_⟩
  · intro hq
    rw [(hproj rbac₁ cache roles₁ now₁).2.2] at hq
    exact hEq hq
  · intro rbac₂ now₂ hlt
    have h2 := hsecond rbac₂ roles₂ now₂ hperm hlt
    refine ⟨?_, ?_, ?_⟩
    · rw [hres rbac₂ _ roles₂ now₂, hres rbac₁ cache roles₁ now₁,
        (hproj rbac₁ cache roles₁ now₁).1, h2]
    · rw [(hproj rbac₂ _ roles₂ now₂).2.1, (hproj rbac₁ cache roles₁ now₁).1, h2]
    · rw [(hproj rbac₂ _ roles₂ now₂).2.2, (hproj rbac₁ cache roles₁ now₁).1, h2]

/-- Witness for `check_permission_cache_ttl_consistency` at concrete inputs:
a first check with role list ["admin"] against the concrete mapping, then a
second check within the window against a mapping that dropped the
permission, still returns the first result from the cache. -/
theorem check_permission_cache_ttl_consistency_witness :
    ∃ E, (0 : Nat) < E
    ∧ ((check_permission_execute w_rbac 300 [] ["admin"] "products:write" 0).store_queried
        = true → E = 0 + 300)
    ∧ ∀ (rbac₂ : List String → List Permission) (now₂ : Nat), now₂ < E →
        (check_permission_execute rbac₂ 300
            (check_permission_execute w_rbac 300 [] ["admin"] "products:write" 0).cache
            ["admin"] "products:write" now₂).result
          = (check_permission_execute w_rbac 300 [] ["admin"] "products:write" 0).result
        ∧ (check_permission_execute rbac₂ 300
            (check_permission_execute w_rbac 300 [] ["admin"] "products:write" 0).cache
            ["admin"] "products:write" now₂).cache_hit = true
        ∧ (check_permission_execute rbac₂ 300
            (check_permission_execute w_rbac 300 [] ["admin"] "products:write" 0).cache
            ["admin"] "products:write" now₂).store_queried = false :=
  check_permission_cache_ttl_consistency w_rbac 300 [] ["admin"] ["admin"]
    "products:write" 0 (by decide) (List.Perm.refl _) (by decide)

/-- C10: with an empty role list the permission check resolves the empty
permission set without reading or writing the cache and without querying
the RBAC store, and fails with InsufficientPermissions for every required
code. -/
theorem check_permission_empty_roles_denied (rbac : List String → List Permission)
    (ttl : Nat) (cache : Cache) (req : String) (now : Nat) :
    (check_permission_execute rbac ttl cache [] req now).result = .error ()
    ∧ (check_permission_execute rbac ttl cache [] req now).cache = cache
    ∧ (check_permission_execute rbac ttl cache [] req now).cache_hit = false
    ∧ (check_permission_execute rbac ttl cache [] req now).store_queried = false := by
  simp [check_permission_execute, get_permissions_for_roles, has_permission]

/-- Counterexample to C9 as stated: the email " user@example.com" differs
from the stored user's email "user@example.com" only by surrounding
whitespace, so per the claim registration should normalize it and fail with
Conflict; instead `Email.__post_init__` rejects it (`Email.normalize` never
trims, and the anchored regex does not admit the leading space), so the
call fails with the ValueError-backed validation outcome and stores
nothing. -/
theorem register_whitespace_rejected_not_conflict :
    (register_execute w_hash { users := [w_user], tokens := [], user_roles := [] }
        " user@example.com" "Password1" 50 9).result = .error .validationErr
    ∧ (register_execute w_hash { users := [w_user], tokens := [], user_roles := [] }
        " user@example.com" "Password1" 50 9).store
      = { users := [w_user], tokens := [], user_roles := [] } := ⟨rfl, rfl⟩

/-- C9 (amended): Register normalizes the email by lowercasing only — it
never trims, and an input with surrounding whitespace is rejected by the
email format validation instead of reaching the duplicate check. For every
accepted registration the stored email equals the lowercased input (with
token_version 0), and an input differing from an existing user's stored
email only in letter case fails with Conflict. -/
theorem register_email_normalization (hp : String → String) (st : Store)
    (email pw : String) (now nid : Nat) :
    (∀ uid, (register_execute hp st email pw now nid).result = .ok uid →
        (register_execute hp st email pw now nid).store.users
          = save_user st.users
              { id := nid, email := email_normalize email, password_hash := hp pw,
                is_active := true, is_verified := false, token_version := 0,
                created_at := now, updated_at := now })
    ∧ (password_policy_ok pw = true → email_valid email = true →
        email_valid (email_normalize email) = true →
        exists_by_email st.users (email_normalize email) = true →
        (register_execute hp st email pw now nid).result = .error .userAlreadyExists)
    ∧ (password_policy_ok pw = true → email_valid email = false →
        (register_execute hp st email pw now nid).result = .error .validationErr
        ∧ (register_execute hp st email pw now nid).store = st) := by
  refine ⟨?_, ?_, ?_⟩
  · intro uid hres
    revert hres
    unfold register_execute
    split
    · exact fun hres => absurd hres (by simp)
    · split
      · exact fun hres => absurd hres (by simp)
      · dsimp only
        split
        · exact fun hres => absurd hres (by simp)
        · split
          · exact fun hres => absurd hres (by simp)
          · exact fun _ => rfl
  · intro hpw hv hn hex
    simp [register_execute, hpw, hv, hn, hex]
  · intro hpw hv
    constructor
    · simp [register_execute, hpw, hv]
    · simp [register_execute, hpw, hv]

/-- Witness for `register_email_normalization` at concrete inputs: the
case-only variant "User@Example.com" of the stored email is accepted by the
format check and fails with Conflict, while a fresh address is stored
lowercased. -/
theorem register_email_normalization_witness :
    (register_execute w_hash { users := [w_user], tokens := [], user_roles := [] }
        "User@Example.com" "Password1" 50 9).result = .error .userAlreadyExists
    ∧ (register_execute w_hash { users := [w_user], tokens := [], user_roles := [] }
        "New.Person@Example.com" "Password1" 50 9).store.users
      = save_user [w_user]
          { id := 9, email := email_normalize "New.Person@Example.com",
            password_hash := w_hash "Password1", is_active := true, is_verified := false,
            token_version := 0, created_at := 50, updated_at := 50 } :=
  ⟨(register_email_normalization w_hash
      { users := [w_user], tokens := [], user_roles := [] }
      "User@Example.com" "Password1" 50 9).2.1
      (by decide) (by decide) (by decide) (by decide),
   (register_email_normalization w_hash
      { users := [w_user], tokens := [], user_roles := [] }
      "New.Person@Example.com" "Password1" 50 9).1 9 rfl⟩

end Ecom
